import Mathlib

/-
Verification of the paragraph-translation and page-range logic of
web-pdf2docx (src/app.py).

Texts are modelled as lists of characters. The translation capability
(GoogleTranslator.translate) is modelled as a function returning
`Except Unit (Option (List Char))`: `Except.error ()` models a raised
exception, `Except.ok none` models the API returning None, and
`Except.ok (some t)` models the API returning the string t.

The per-operation state consists of the cache (a Python dict, modelled as
an association list with insertion at the head and first-match lookup) and
a log of every argument the capability was invoked on (so that claims
about the number of capability invocations can be stated).
-/

namespace WebPdf2Docx

/-- Whitespace as stripped by Python str.strip() (ASCII part of the set). -/
def pyIsSpace (c : Char) : Bool :=
  c == ' ' || c == '\t' || c == '\n' || c == '\r' || c == '\x0b' || c == '\x0c'

/-- Python text.strip(): drop leading and trailing whitespace. -/
def pyStrip (s : List Char) : List Char :=
  ((s.dropWhile pyIsSpace).reverse.dropWhile pyIsSpace).reverse

/-- Python len(text) - len(text.lstrip(" ")): number of leading ASCII spaces. -/
def leadingSpaces (s : List Char) : Nat :=
  (s.takeWhile (fun c => c == ' ')).length

/-- Python len(text) - len(text.rstrip(" ")): number of trailing ASCII spaces. -/
def trailingSpaces (s : List Char) : Nat :=
  (s.reverse.takeWhile (fun c => c == ' ')).length

/-- The padding re-application in safe_translate:
" " * leading + translated + " " * trailing. -/
def padSpaces (text translated : List Char) : List Char :=
  List.replicate (leadingSpaces text) ' ' ++ translated
    ++ List.replicate (trailingSpaces text) ' '

/-- The translation capability: translator.translate.
`Except.error ()` models a raised exception, `Except.ok none` a None
result, `Except.ok (some t)` a returned string. -/
abbrev Cap := List Char → Except Unit (Option (List Char))

/-- Per-operation state of translate_docx_by_paragraph: the cache dict
plus a log of the arguments of all capability invocations so far. -/
structure TState where
  cache : List (List Char × List Char)
  log : List (List Char)
deriving DecidableEq, Repr

/-- Python dict lookup cache[stripped] (first matching key wins; keys are
unique because safe_translate checks membership before inserting). -/
def cacheLookup (cache : List (List Char × List Char)) (k : List Char) :
    Option (List Char) :=
  match cache with
  | [] => none
  | (k2, v) :: rest => if k2 = k then some v else cacheLookup rest k

/-- safe_translate from src/app.py, lines 53-77.  The `Except` codomain
mirrors the fact that the body calls a capability that may raise; the
try/except of the source is the match on `cap (pyStrip text)`, whose
error arm returns the original text (fallback) rather than propagating. -/
def safe_translate (cap : Cap) (st : TState) (text : List Char) :
    Except Unit (List Char × TState) :=
  if pyStrip text = [] then
    Except.ok (text, st)
  else
    match cacheLookup st.cache (pyStrip text) with
    | some translated => Except.ok (padSpaces text translated, st)
    | none =>
      match cap (pyStrip text) with
      | Except.error _ =>
          Except.ok (text, ⟨st.cache, st.log ++ [pyStrip text]⟩)
      | Except.ok none =>
          Except.ok (text, ⟨st.cache, st.log ++ [pyStrip text]⟩)
      | Except.ok (some translated) =>
          if translated = [] then
            Except.ok (text, ⟨st.cache, st.log ++ [pyStrip text]⟩)
          else
            Except.ok (padSpaces text translated,
              ⟨(pyStrip text, translated) :: st.cache,
               st.log ++ [pyStrip text]⟩)

/-- The paragraph loop of translate_docx_by_paragraph (src/app.py lines
79-88): each paragraph's text is replaced by safe_translate of it, in
order, threading the cache state.  Paragraphs inside tables are the tail
of the same sequence. -/
def translateParas (cap : Cap) : TState → List (List Char) →
    Except Unit (List (List Char) × TState)
  | st, [] => Except.ok ([], st)
  | st, p :: ps =>
    match safe_translate cap st p with
    | Except.error e => Except.error e
    | Except.ok (r, st1) =>
      match translateParas cap st1 ps with
      | Except.error e => Except.error e
      | Except.ok (rs, st2) => Except.ok (r :: rs, st2)

/-- Number of occurrences of a trimmed string in the invocation log. -/
def countOcc (s : List Char) : List (List Char) → Nat
  | [] => 0
  | x :: xs => (if x = s then 1 else 0) + countOcc s xs

/-- The convert_kwargs construction of pdf_to_docx (src/app.py lines
22-28): zero-based start = max(start_page - 1, 0) when start_page is
given, omitted otherwise; likewise for end_page. -/
def convert_kwargs (start_page end_page : Option Int) : Option Int × Option Int :=
  (match start_page with
   | some s => some (max (s - 1) 0)
   | none => none,
   match end_page with
   | some e => some (max (e - 1) 0)
   | none => none)

/-- The page-range consistency test of main (src/app.py line 193):
sp is not None and ep is not None and ep < sp. -/
def page_range_error (sp ep : Option Int) : Bool :=
  match sp, ep with
  | some s, some e => decide (e < s)
  | _, _ => false

/-- Outcome of the conversion branch of main: either aborted with the
"End page cannot be smaller than start page." error before any
conversion, or converted with the normalized page-range kwargs. -/
inductive RunOutcome where
  | abortedInputError : RunOutcome
  | converted : Option Int → Option Int → RunOutcome
deriving DecidableEq, Repr

/-- The page-range part of main (src/app.py lines 190-214): check the
range, abort on error, otherwise run pdf_to_docx with the normalized
kwargs. -/
def main_page_flow (sp ep : Option Int) : RunOutcome :=
  if page_range_error sp ep then
    RunOutcome.abortedInputError
  else
    RunOutcome.converted (convert_kwargs sp ep).1 (convert_kwargs sp ep).2

/-- The words of the end-to-end scenario, as character lists. -/
def helloChars : List Char := ['H', 'e', 'l', 'l', 'o']

/-- "World" as a character list. -/
def worldChars : List Char := ['W', 'o', 'r', 'l', 'd']

/-- "Bonjour" as a character list. -/
def bonjourChars : List Char := ['B', 'o', 'n', 'j', 'o', 'u', 'r']

/-- "Monde" as a character list. -/
def mondeChars : List Char := ['M', 'o', 'n', 'd', 'e']

/-- The stub translator of the end-to-end scenario: "Hello" to "Bonjour",
"World" to "Monde". -/
def stubCap : Cap := fun s =>
  if s = helloChars then Except.ok (some bonjourChars)
  else if s = worldChars then Except.ok (some mondeChars)
  else Except.ok none

/-- Invariant tying the invocation log to the cache for one trimmed
string s: s was attempted at most once so far, and if s is not cached
then it was never attempted.  This holds along any run whose capability
succeeds on s with a non-empty result. -/
def CacheInv (s : List Char) (st : TState) : Prop :=
  countOcc s st.log ≤ 1 ∧ (cacheLookup st.cache s = none → countOcc s st.log = 0)

/- ------------------------------------------------------------------ -/
/- Theorems -/
/- ------------------------------------------------------------------ -/

/-- countOcc distributes over list append. -/
theorem countOcc_append (s : List Char) (l1 l2 : List (List Char)) :
    countOcc s (l1 ++ l2) = countOcc s l1 + countOcc s l2 := by
  induction l1 with
  | nil => simp [countOcc]
  | cons x xs ih => simp [countOcc, ih]; omega

/-- safe_translate always returns Except.ok (shared helper). -/
theorem safe_translate_total (cap : Cap) (st : TState) (text : List Char) :
    ∃ r st1, safe_translate cap st text = Except.ok (r, st1) := by
  unfold safe_translate
  repeat' split
  all_goals exact ⟨_, _, rfl⟩

/-- translateParas always returns Except.ok (shared helper). -/
theorem translateParas_total (cap : Cap) :
    ∀ (paras : List (List Char)) (st : TState),
      ∃ out st2, translateParas cap st paras = Except.ok (out, st2)
  | [], st => ⟨[], st, rfl⟩
  | p :: ps, st => by
    obtain ⟨r, st1, h1⟩ := safe_translate_total cap st p
    obtain ⟨rs, st2, h2⟩ := translateParas_total cap ps st1
    exact ⟨r :: rs, st2, by simp [translateParas, h1, h2]⟩

/-- C2: a paragraph text that is empty or entirely whitespace is returned
unchanged with the state untouched, for every capability: the capability
is never consulted (the invocation log does not grow). -/
theorem blank_unchanged (cap : Cap) (st : TState) (P : List Char)
    (hP : pyStrip P = []) :
    safe_translate cap st P = Except.ok (P, st) := by
  simp [safe_translate, hP]

/-- C2 witness at the concrete whitespace-only input " \t ". -/
theorem blank_unchanged_witness :
    pyStrip [' ', '\t', ' '] = [] ∧
      safe_translate (fun _ => Except.ok none) ⟨[], []⟩ [' ', '\t', ' ']
        = Except.ok ([' ', '\t', ' '], ⟨[], []⟩) :=
  ⟨by decide, blank_unchanged (fun _ => Except.ok none) ⟨[], []⟩ _ (by decide)⟩

/-- C6: page-range normalization produces zero-based
start = max(start-1, 0) when start is provided and omits it otherwise,
and zero-based end = max(end-1, 0) when end is provided and omits it
otherwise; in particular (1, None) maps to (0, omitted), (3, 5) to
(2, 4), and (1, 1) to (0, 0). -/
theorem page_range_normalization :
    (∀ sp ep : Option Int,
      convert_kwargs sp ep
        = (sp.map (fun s => max (s - 1) 0), ep.map (fun e => max (e - 1) 0))) ∧
    convert_kwargs (some 1) none = (some 0, none) ∧
    convert_kwargs (some 3) (some 5) = (some 2, some 4) ∧
    convert_kwargs (some 1) (some 1) = (some 0, some 0) := by
  refine ⟨fun sp ep => ?_, by decide, by decide, by decide⟩
  cases sp <;> cases ep <;> rfl

/-- C7: when both pages are given and the 1-based end page is strictly
smaller than the 1-based start page, main aborts with the input error
before any conversion is performed: the outcome is not `converted`, so no
conversion step runs and no output is produced. -/
theorem end_before_start_aborts (s e : Int) (h : e < s) :
    main_page_flow (some s) (some e) = RunOutcome.abortedInputError := by
  simp [main_page_flow, page_range_error, h]

/-- C7 witness at start page 2, end page 1. -/
theorem end_before_start_aborts_witness :
    (1 : Int) < 2 ∧
      main_page_flow (some 2) (some 1) = RunOutcome.abortedInputError :=
  ⟨by decide, end_before_start_aborts 2 1 (by decide)⟩

/-- C1: for a paragraph text P that is not empty and not entirely
whitespace, translating with a capability that returns the fixed
non-empty string T yields the leading ASCII-space padding of P, then T,
then the trailing ASCII-space padding of P, the counts being the numbers
of leading/trailing U+0020 characters of P (not whitespace in general);
the trimmed form and its translation are cached and the capability is
invoked once, on the trimmed form. -/
theorem padding_reapplied (P T : List Char) (hP : pyStrip P ≠ []) (hT : T ≠ []) :
    safe_translate (fun _ => Except.ok (some T)) ⟨[], []⟩ P
      = Except.ok
          (List.replicate (leadingSpaces P) ' ' ++ T
            ++ List.replicate (trailingSpaces P) ' ',
           ⟨[(pyStrip P, T)], [pyStrip P]⟩) := by
  simp [safe_translate, hP, cacheLookup, hT, padSpaces]

/-- C1 witness at P = " a " and T = "T". -/
theorem padding_reapplied_witness :
    pyStrip [' ', 'a', ' '] ≠ [] ∧ (['T'] : List Char) ≠ [] ∧
      safe_translate (fun _ => Except.ok (some ['T'])) ⟨[], []⟩ [' ', 'a', ' ']
        = Except.ok ([' ', 'T', ' '], ⟨[(['a'], ['T'])], [['a']]⟩) :=
  ⟨by decide, by decide, padding_reapplied [' ', 'a', ' '] ['T'] (by decide) (by decide)⟩

/-- C4: for a non-blank paragraph text P whose trimmed form is not yet
cached, if the capability raises, returns None, or returns the empty
string on the trimmed form, then the paragraph output is exactly P, the
cache is unchanged (nothing is stored), and the document-level operation
still succeeds (returns ok). -/
theorem failure_fallback (cap : Cap) (st : TState) (P : List Char)
    (hP : pyStrip P ≠ [])
    (hmiss : cacheLookup st.cache (pyStrip P) = none)
    (hfail : cap (pyStrip P) = Except.error () ∨ cap (pyStrip P) = Except.ok none ∨
      cap (pyStrip P) = Except.ok (some [])) :
    safe_translate cap st P = Except.ok (P, ⟨st.cache, st.log ++ [pyStrip P]⟩) ∧
      translateParas cap st [P]
        = Except.ok ([P], ⟨st.cache, st.log ++ [pyStrip P]⟩) := by
  have hsafe : safe_translate cap st P
      = Except.ok (P, ⟨st.cache, st.log ++ [pyStrip P]⟩) := by
    rcases hfail with h | h | h <;> simp [safe_translate, hP, hmiss, h]
  exact ⟨hsafe, by simp [translateParas, hsafe]⟩

/-- C4 witness at P = "a" with an always-raising capability. -/
theorem failure_fallback_witness :
    pyStrip ['a'] ≠ [] ∧
      safe_translate (fun _ => Except.error ()) ⟨[], []⟩ ['a']
        = Except.ok (['a'], ⟨[], [['a']]⟩) :=
  ⟨by decide,
   (failure_fallback (fun _ => Except.error ()) ⟨[], []⟩ ['a']
      (by decide) (by decide) (Or.inl rfl)).1⟩

/-- C3: two paragraph texts with the same trimmed form, the first
translation of which succeeds with a non-empty result, lead to exactly
one capability invocation for that trimmed form (the log holds it once);
the second occurrence reuses the cached translation with its own
padding. -/
theorem cache_hit_single_invocation (cap : Cap) (P1 P2 t : List Char)
    (h1 : pyStrip P1 ≠ []) (h2 : pyStrip P2 = pyStrip P1)
    (hcap : cap (pyStrip P1) = Except.ok (some t)) (ht : t ≠ []) :
    translateParas cap ⟨[], []⟩ [P1, P2]
      = Except.ok ([padSpaces P1 t, padSpaces P2 t],
          ⟨[(pyStrip P1, t)], [pyStrip P1]⟩) := by
  have hs1 : safe_translate cap ⟨[], []⟩ P1
      = Except.ok (padSpaces P1 t, ⟨[(pyStrip P1, t)], [pyStrip P1]⟩) := by
    simp [safe_translate, h1, cacheLookup, hcap, ht]
  have hs2 : safe_translate cap ⟨[(pyStrip P1, t)], [pyStrip P1]⟩ P2
      = Except.ok (padSpaces P2 t, ⟨[(pyStrip P1, t)], [pyStrip P1]⟩) := by
    simp [safe_translate, h2, h1, cacheLookup]
  simp [translateParas, hs1, hs2]

/-- C3 witness: "a" then " a" with a capability translating "a" to "T". -/
theorem cache_hit_single_invocation_witness :
    translateParas (fun _ => Except.ok (some ['T'])) ⟨[], []⟩ [['a'], [' ', 'a']]
      = Except.ok ([['T'], [' ', 'T']], ⟨[(['a'], ['T'])], [['a']]⟩) :=
  cache_hit_single_invocation (fun _ => Except.ok (some ['T'])) ['a'] [' ', 'a'] ['T']
    (by decide) (by decide) rfl (by decide)

/-- C8: the end-to-end scenario: input paragraphs
["Hello", "  Hello  ", "", "World"] with the stub translator yield
["Bonjour", "  Bonjour  ", "", "Monde"], and the invocation log is
exactly [Hello, World]: the stub is invoked exactly twice, once per
distinct trimmed text. -/
theorem end_to_end_scenario :
    translateParas stubCap ⟨[], []⟩
        [helloChars, [' ', ' '] ++ helloChars ++ [' ', ' '], [], worldChars]
      = Except.ok
          ([bonjourChars, [' ', ' '] ++ bonjourChars ++ [' ', ' '], [], mondeChars],
           ⟨[(worldChars, mondeChars), (helloChars, bonjourChars)],
            [helloChars, worldChars]⟩) ∧
      List.length [helloChars, worldChars] = 2 :=
  ⟨rfl, rfl⟩

/-- Shape lemma (shared helper): translateParas succeeds, preserves the
paragraph count, and every output position holds the safe_translate image
of the input at that position. -/
theorem translateParas_shape (cap : Cap) :
    ∀ (paras : List (List Char)) (st : TState),
      ∃ out st2, translateParas cap st paras = Except.ok (out, st2) ∧
        out.length = paras.length ∧
        ∀ (i : Nat) (p : List Char), paras[i]? = some p →
          ∃ stI stI2 r, safe_translate cap stI p = Except.ok (r, stI2) ∧
            out[i]? = some r
  | [], st => ⟨[], st, rfl, rfl, by intro i p h; simp at h⟩
  | p :: ps, st => by
    obtain ⟨r, st1, h1⟩ := safe_translate_total cap st p
    obtain ⟨outs, st2, h2, hlen, hidx⟩ := translateParas_shape cap ps st1
    refine ⟨r :: outs, st2, by simp [translateParas, h1, h2], by simp [hlen], ?_⟩
    intro i q hq
    cases i with
    | zero =>
      simp at hq
      subst hq
      exact ⟨st, st1, r, h1, by simp⟩
    | succ j =>
      simp only [List.getElem?_cons_succ] at hq ⊢
      exact hidx j q hq

/-- C9: for every capability and state, the document-translation
operation succeeds, produces exactly as many paragraphs as it was given,
in the same order: the i-th output is the safe_translate image of the
i-th input (no paragraph is added, removed or reordered). -/
theorem paragraph_count_order_preserved (cap : Cap) (st : TState)
    (paras : List (List Char)) :
    ∃ out st2, translateParas cap st paras = Except.ok (out, st2) ∧
      out.length = paras.length ∧
      ∀ (i : Nat) (p : List Char), paras[i]? = some p →
        ∃ stI stI2 r, safe_translate cap stI p = Except.ok (r, stI2) ∧
          out[i]? = some r :=
  translateParas_shape cap paras st

/-- C9 witness at the concrete input ["a", ""] with a None-returning
capability. -/
theorem paragraph_count_order_preserved_witness :
    ∃ out st2,
      translateParas (fun _ => Except.ok none) ⟨[], []⟩ [['a'], []]
        = Except.ok (out, st2) ∧
      out.length = List.length [['a'], []] ∧
      ∀ (i : Nat) (p : List Char), ([['a'], []] : List (List Char))[i]? = some p →
        ∃ stI stI2 r,
          safe_translate (fun _ => Except.ok none) stI p = Except.ok (r, stI2) ∧
            out[i]? = some r :=
  paragraph_count_order_preserved (fun _ => Except.ok none) ⟨[], []⟩ [['a'], []]

/-- Case analysis of one safe_translate step (shared helper): either the
state is untouched (blank text or cache hit), or the text is non-blank,
its trimmed form missed the cache and was logged as an invocation, and
the cache either was left alone because the capability failed (raised,
returned None, or returned empty) or gained the trimmed form with its
non-empty translation. -/
theorem safe_translate_cases (cap : Cap) (st : TState) (text r : List Char)
    (st1 : TState)
    (hrun : safe_translate cap st text = Except.ok (r, st1)) :
    st1 = st ∨
      (pyStrip text ≠ [] ∧ cacheLookup st.cache (pyStrip text) = none ∧
       st1.log = st.log ++ [pyStrip text] ∧
       ((st1.cache = st.cache ∧
          (cap (pyStrip text) = Except.error () ∨
           cap (pyStrip text) = Except.ok none ∨
           cap (pyStrip text) = Except.ok (some []))) ∨
        (∃ tr, cap (pyStrip text) = Except.ok (some tr) ∧ tr ≠ [] ∧
          st1.cache = (pyStrip text, tr) :: st.cache))) := by
  unfold safe_translate at hrun
  split at hrun
  · cases hrun
    exact Or.inl rfl
  next hblank =>
    split at hrun
    · cases hrun
      exact Or.inl rfl
    next hmiss =>
      split at hrun
      next e hcap =>
        cases hrun
        cases e
        exact Or.inr ⟨hblank, hmiss, rfl, Or.inl ⟨rfl, Or.inl hcap⟩⟩
      next hcap =>
        cases hrun
        exact Or.inr ⟨hblank, hmiss, rfl, Or.inl ⟨rfl, Or.inr (Or.inl hcap)⟩⟩
      next tr hcap =>
        split at hrun
        next htr =>
          cases hrun
          subst htr
          exact Or.inr ⟨hblank, hmiss, rfl, Or.inl ⟨rfl, Or.inr (Or.inr hcap)⟩⟩
        next htr =>
          cases hrun
          exact Or.inr ⟨hblank, hmiss, rfl, Or.inr ⟨tr, hcap, htr, rfl⟩⟩

/-- Invariant preservation by one step (shared helper): when the
capability succeeds on s with a non-empty result, safe_translate
preserves CacheInv s. -/
theorem cacheInv_step (cap : Cap) (s t : List Char)
    (hcap : cap s = Except.ok (some t)) (ht : t ≠ [])
    (st : TState) (text r : List Char) (st1 : TState)
    (hrun : safe_translate cap st text = Except.ok (r, st1))
    (hinv : CacheInv s st) : CacheInv s st1 := by
  rcases safe_translate_cases cap st text r st1 hrun with heq | ⟨hne, hmiss, hlog, hcase⟩
  · exact heq ▸ hinv
  by_cases hs : pyStrip text = s
  · have h0 : countOcc s st.log = 0 := hinv.2 (hs ▸ hmiss)
    rcases hcase with ⟨hc, hfail⟩ | ⟨tr, htr, htrne, hc⟩
    · exfalso
      rw [hs, hcap] at hfail
      rcases hfail with h | h | h
      · exact Except.noConfusion h
      · simp at h
      · simp at h
        exact ht h
    · constructor
      · rw [hlog, countOcc_append, h0, hs]
        simp [countOcc]
      · intro hnone
        rw [hc, hs] at hnone
        simp [cacheLookup] at hnone
  · have hcnt : countOcc s st1.log = countOcc s st.log := by
      rw [hlog, countOcc_append]
      simp [countOcc, hs]
    constructor
    · rw [hcnt]
      exact hinv.1
    · intro hnone
      rw [hcnt]
      rcases hcase with ⟨hc, _⟩ | ⟨tr, _, _, hc⟩
      · exact hinv.2 (hc ▸ hnone)
      · rw [hc] at hnone
        simp [cacheLookup, hs] at hnone
        exact hinv.2 hnone

/-- Invariant preservation by the whole run (shared helper). -/
theorem translateParas_cacheInv (cap : Cap) (s t : List Char)
    (hcap : cap s = Except.ok (some t)) (ht : t ≠ []) :
    ∀ (paras : List (List Char)) (st : TState) (out : List (List Char))
      (st2 : TState),
      translateParas cap st paras = Except.ok (out, st2) →
        CacheInv s st → CacheInv s st2
  | [], st, out, st2, hrun, hinv => by
    simp [translateParas] at hrun
    exact hrun.2 ▸ hinv
  | p :: ps, st, out, st2, hrun, hinv => by
    obtain ⟨r, st1, h1⟩ := safe_translate_total cap st p
    obtain ⟨rs, st3, h2⟩ := translateParas_total cap ps st1
    simp only [translateParas, h1, h2, Except.ok.injEq, Prod.mk.injEq] at hrun
    obtain ⟨-, hst⟩ := hrun
    exact hst ▸ translateParas_cacheInv cap s t hcap ht ps st1 rs st3 h2
      (cacheInv_step cap s t hcap ht st p r st1 h1 hinv)

/-- C5 counterexample: with a capability that always raises, the
paragraph list ["a", "a"] leads to two capability invocations for the
single unique trimmed string "a" (the failed first attempt is not
cached, so the second occurrence performs a new network attempt),
refuting "at most once per unique trimmed string regardless of whether
that attempt succeeded or failed". -/
theorem retry_after_failure_counterexample :
    translateParas (fun _ => Except.error ()) ⟨[], []⟩ [['a'], ['a']]
      = Except.ok ([['a'], ['a']], ⟨[], [['a'], ['a']]⟩) ∧
      countOcc ['a'] [['a'], ['a']] = 2 :=
  ⟨rfl, rfl⟩

/-- C5 as amended: over a whole document-translation operation started
with an empty cache, the capability is invoked at most once per unique
trimmed string whose translation succeeds with a non-empty result; a
failed attempt is not cached and a later occurrence of the same trimmed
string performs a new attempt. -/
theorem successful_translation_single_invocation (cap : Cap) (s t : List Char)
    (hcap : cap s = Except.ok (some t)) (ht : t ≠ [])
    (paras out : List (List Char)) (st2 : TState)
    (hrun : translateParas cap ⟨[], []⟩ paras = Except.ok (out, st2)) :
    countOcc s st2.log ≤ 1 :=
  (translateParas_cacheInv cap s t hcap ht paras ⟨[], []⟩ out st2 hrun
    ⟨Nat.zero_le 1, fun _ => rfl⟩).1

/-- C5 amended witness: paragraphs ["a", "a"] with a capability that
always returns "T"; the final log is ["a"], one invocation. -/
theorem successful_translation_single_invocation_witness :
    countOcc ['a'] [['a']] ≤ 1 :=
  successful_translation_single_invocation (fun _ => Except.ok (some ['T']))
    ['a'] ['T'] rfl (by decide) [['a'], ['a']] [['T'], ['T']]
    ⟨[(['a'], ['T'])], [['a']]⟩ rfl

/-- C10: safe_translate never raises: for every capability, including one
that always raises, and every state and text, it returns Except.ok. -/
theorem safe_translate_never_raises (cap : Cap) (st : TState) (text : List Char) :
    ∃ r st1, safe_translate cap st text = Except.ok (r, st1) :=
  safe_translate_total cap st text

end WebPdf2Docx
